import Mathlib

/-!
# Verification of the ComfyLlama conversation-state engine

Shallow embedding of `comfy_llama_node.py`: the chat-history validator
(`_parse_chat_history`), the transcript merger (`_format_chat_history_output`)
and the caller-facing surface (`execute_llama_chat`), together with a model
of the Python `json` module's `loads`/`dumps` as used by that file
(`json.loads` on the history string, `json.dumps(·, indent=2)` with and
without `ensure_ascii`).

Python dynamic values that can appear in a decoded chat history are modelled
by the `Json` inductive; the duck-typed completion response object is
modelled by optional fields (an `Option` that is `none` models an absent
attribute, so `hasattr` is `Option.isSome`).
-/

namespace ComfyLlama

/-- A JSON value as decoded by Python's `json.loads`.
Python decodes JSON numbers to `int` (constructor `num`) or `float`
(constructor `fnum`, modelled exactly as a decimal mantissa/exponent pair
`m * 10 ^ e`, avoiding binary floating point).  Objects decode to `dict`,
which preserves insertion order; a duplicate key overwrites the value while
keeping the first position, so the field list of a decoded object has
pairwise-distinct keys. -/
inductive Json where
  | null
  | bool (b : Bool)
  | num (n : Int)
  | fnum (mantissa : Int) (exponent : Int)
  | str (s : String)
  | arr (elems : List Json)
  | obj (fields : List (String × Json))

/-! ## Serialization: `json.dumps(value, indent=2)`

With `indent=2` Python uses item separator `","` and key separator `": "`,
putting every array element / object member on its own line indented by
`2 * depth` spaces.  `ensure_ascii=True` (the default, used on the error
path at line 385) additionally `\uXXXX`-escapes every character above
`0x7e`; `ensure_ascii=False` (used at lines 273/278) leaves them raw. -/

/-- Hex digit character (lowercase, as emitted by Python's `json`). -/
def hexDigitChar (n : Nat) : Char :=
  if n < 10 then Char.ofNat ('0'.toNat + n)
  else Char.ofNat ('a'.toNat + (n - 10))

/-- The four hex digits of `n % 0x10000`, most significant first. -/
def hex4 (n : Nat) : List Char :=
  [hexDigitChar (n / 4096 % 16), hexDigitChar (n / 256 % 16),
   hexDigitChar (n / 16 % 16), hexDigitChar (n % 16)]

/-- The `\uXXXX` escape for one scalar value, using a surrogate pair above
the basic multilingual plane (as Python does when `ensure_ascii` holds). -/
def uEscape (n : Nat) : List Char :=
  if n < 0x10000 then '\\' :: 'u' :: hex4 n
  else
    let m := n - 0x10000
    ('\\' :: 'u' :: hex4 (0xD800 + m / 0x400)) ++ ('\\' :: 'u' :: hex4 (0xDC00 + m % 0x400))

/-- How `json.dumps` renders one character inside a string literal. -/
def escChars (ascii : Bool) (c : Char) : List Char :=
  if c = '"' then ['\\', '"']
  else if c = '\\' then ['\\', '\\']
  else if c = '\n' then ['\\', 'n']
  else if c = '\r' then ['\\', 'r']
  else if c = '\t' then ['\\', 't']
  else if c = '\x08' then ['\\', 'b']
  else if c = '\x0c' then ['\\', 'f']
  else if c.toNat < 0x20 then '\\' :: 'u' :: hex4 c.toNat
  else if ascii && decide (0x7f ≤ c.toNat) then uEscape c.toNat
  else [c]

/-- Body of a serialized string literal (without the surrounding quotes). -/
def escBody (ascii : Bool) (s : String) : List Char :=
  s.data.flatMap (escChars ascii)

/-- A serialized string literal, quotes included. -/
def quoteL (ascii : Bool) (s : String) : List Char :=
  '"' :: escBody ascii s ++ ['"']

/-- A run of `n` spaces: the indentation prefix at depth `n/2`. -/
def nSpaces (n : Nat) : List Char :=
  List.replicate n ' '

/-- Decimal rendering of a decoded number.  Integers print exactly as
Python does; for floats the model prints `m` and the decimal exponent,
an approximation of `repr(float)` (no claim depends on float output). -/
def numChars : Json → List Char
  | .num n => (toString n).data
  | .fnum m e => (toString m).data ++ 'e' :: (toString e).data
  | _ => []

mutual

/-- Model of `json.dumps(v, indent=2, ensure_ascii=ascii)` at nesting depth
`lvl`, as a character list. -/
def dumpL (ascii : Bool) (lvl : Nat) : Json → List Char
  | .null => "null".data
  | .bool true => "true".data
  | .bool false => "false".data
  | .num n => numChars (.num n)
  | .fnum m e => numChars (.fnum m e)
  | .str s => quoteL ascii s
  | .arr [] => ['[', ']']
  | .arr (x :: xs) =>
      '[' :: '\n' :: nSpaces (2 * (lvl + 1)) ++ dumpL ascii (lvl + 1) x ++
        dumpItems ascii (lvl + 1) xs ++ '\n' :: nSpaces (2 * lvl) ++ [']']
  | .obj [] => ['{', '}']
  | .obj ((k, v) :: kvs) =>
      '{' :: '\n' :: nSpaces (2 * (lvl + 1)) ++ quoteL ascii k ++ ':' :: ' ' ::
        dumpL ascii (lvl + 1) v ++ dumpFields ascii (lvl + 1) kvs ++
        '\n' :: nSpaces (2 * lvl) ++ ['}']

/-- The second-and-later elements of an array body: each one prefixed by
the item separator `","`, a newline and the indent. -/
def dumpItems (ascii : Bool) (lvl : Nat) : List Json → List Char
  | [] => []
  | y :: ys =>
      ',' :: '\n' :: nSpaces (2 * lvl) ++ dumpL ascii lvl y ++ dumpItems ascii lvl ys

/-- The second-and-later members of an object body, comma-prefixed. -/
def dumpFields (ascii : Bool) (lvl : Nat) : List (String × Json) → List Char
  | [] => []
  | (k, v) :: ps =>
      ',' :: '\n' :: nSpaces (2 * lvl) ++ quoteL ascii k ++ ':' :: ' ' ::
        dumpL ascii lvl v ++ dumpFields ascii lvl ps

end

/-- Model of `json.dumps(v, indent=2, ensure_ascii=ascii)` as a Lean string. -/
def dumps (ascii : Bool) (v : Json) : String :=
  String.mk (dumpL ascii 0 v)

/-! ## Deserialization: `json.loads`

A recursive-descent parser over a character list, following the strict JSON
grammar implemented by Python's `json.scanner` (double-quoted strings with
escape sequences, no control characters raw inside strings, no trailing
commas, leading-zero integers cut off after the `0`).  The model elides the
non-standard `NaN`/`Infinity` literals Python accepts by default, and maps a
lone `\uXXXX` surrogate (not representable as a Lean `Char`) through
`Char.ofNat`.  Recursion is by fuel; `jsonParse` supplies a budget that is
always sufficient (one unit covers at least one consumed character). -/

/-- JSON insignificant whitespace (exactly the four characters of RFC 8259,
which is also what Python's `json` skips between tokens). -/
def isJsonWs (c : Char) : Bool :=
  c = ' ' || c = '\t' || c = '\n' || c = '\r'

/-- Drop leading JSON whitespace. -/
def skipWs : List Char → List Char
  | [] => []
  | c :: r => if isJsonWs c then skipWs r else c :: r

/-- Value of one hex digit, if any. -/
def hexVal (c : Char) : Option Nat :=
  let n := c.toNat
  if '0' ≤ c ∧ c ≤ '9' then some (n - '0'.toNat)
  else if 'a' ≤ c ∧ c ≤ 'f' then some (n - 'a'.toNat + 10)
  else if 'A' ≤ c ∧ c ≤ 'F' then some (n - 'A'.toNat + 10)
  else none

/-- Value of a four-hex-digit group. -/
def hexVal4 (a b c d : Char) : Option Nat :=
  match hexVal a, hexVal b, hexVal c, hexVal d with
  | some x, some y, some z, some w => some (4096 * x + 256 * y + 16 * z + w)
  | _, _, _, _ => none

/-- The decoded character of a one-letter escape sequence. -/
def simpleEsc (e : Char) : Option Char :=
  if e = '"' then some '"'
  else if e = '\\' then some '\\'
  else if e = '/' then some '/'
  else if e = 'b' then some '\x08'
  else if e = 'f' then some '\x0c'
  else if e = 'n' then some '\n'
  else if e = 'r' then some '\r'
  else if e = 't' then some '\t'
  else none

/-- Scan the body of a string literal (the opening quote is already
consumed), accumulating decoded characters in reverse.  A raw control
character aborts (Python's `strict=True`).  After a backslash, `\uXXXX`
decodes four hex digits, combining a high surrogate followed by a `\uXXXX`
low surrogate into one scalar; a lone surrogate goes through `Char.ofNat`
(Python keeps it as a lone surrogate code unit, which a Lean `Char` cannot
carry). -/
def parseStrAux : Nat → List Char → List Char → Option (String × List Char)
  | 0, _, _ => none
  | _, [], _ => none
  | f + 1, c :: rest, acc =>
    if c = '"' then some (String.mk acc.reverse, rest)
    else if c = '\\' then
      match rest with
      | 'u' :: h1 :: h2 :: h3 :: h4 :: rest3 =>
        match hexVal4 h1 h2 h3 h4 with
        | none => none
        | some n =>
          if 0xD800 ≤ n ∧ n < 0xDC00 then
            match rest3 with
            | '\\' :: 'u' :: g1 :: g2 :: g3 :: g4 :: rest4 =>
              match hexVal4 g1 g2 g3 g4 with
              | some m =>
                if 0xDC00 ≤ m ∧ m < 0xE000 then
                  parseStrAux f rest4
                    (Char.ofNat (0x10000 + (n - 0xD800) * 0x400 + (m - 0xDC00)) :: acc)
                else parseStrAux f (g1 :: g2 :: g3 :: g4 :: rest4) (Char.ofNat n :: acc)
              | none => parseStrAux f rest3 (Char.ofNat n :: acc)
            | _ => parseStrAux f rest3 (Char.ofNat n :: acc)
          else parseStrAux f rest3 (Char.ofNat n :: acc)
      | e :: rest2 =>
        match simpleEsc e with
        | some d => parseStrAux f rest2 (d :: acc)
        | none => none
      | [] => none
    else if c.toNat < 0x20 then none
    else parseStrAux f rest (c :: acc)

/-- Digits-to-number accumulator. -/
def digitsToNat (ds : List Char) : Nat :=
  ds.foldl (fun a c => 10 * a + (c.toNat - '0'.toNat)) 0

/-- Scan a number token.  Mirrors Python's `NUMBER_RE`: optional minus,
then either `0` or a nonzero-led digit run, then an optional fraction and
an optional exponent, each only consumed when well formed (a dangling `.`
or `e` is left in the remainder, to fail at the enclosing context exactly
as CPython's regex-based scanner does). -/
def parseNum (cs : List Char) : Option (Json × List Char) :=
  let (isNeg, afterSign) : Bool × List Char := match cs with
    | '-' :: r => (true, r)
    | _ => (false, cs)
  let (ipart, rest1) : List Char × List Char :=
    match afterSign with
    | '0' :: r => (['0'], r)
    | _ => (afterSign.takeWhile Char.isDigit, afterSign.dropWhile Char.isDigit)
  if ipart.isEmpty then none
  else
    let (fpart, rest2) : List Char × List Char :=
      match rest1 with
      | '.' :: r =>
        let ds := r.takeWhile Char.isDigit
        if ds.isEmpty then ([], rest1) else (ds, r.dropWhile Char.isDigit)
      | _ => ([], rest1)
    let (epart, rest3) : Option Int × List Char :=
      match rest2 with
      | e :: r =>
        if e = 'e' ∨ e = 'E' then
          let (esign, r2) : Int × List Char := match r with
            | '+' :: r2 => (1, r2)
            | '-' :: r2 => (-1, r2)
            | _ => (1, r)
          let ds := r2.takeWhile Char.isDigit
          if ds.isEmpty then (none, rest2)
          else (some (esign * Int.ofNat (digitsToNat ds)), r2.dropWhile Char.isDigit)
        else (none, rest2)
      | [] => (none, rest2)
    let sign : Int := if isNeg then -1 else 1
    match fpart, epart with
    | [], none => some (.num (sign * Int.ofNat (digitsToNat ipart)), rest3)
    | _, _ =>
      let mant : Int := sign * Int.ofNat (digitsToNat (ipart ++ fpart))
      let expo : Int := epart.getD 0 - Int.ofNat fpart.length
      some (.fnum mant expo, rest3)

/-- Dictionary insertion: a repeated key overwrites the stored value in
place (Python `dict` semantics for duplicate JSON object keys), a fresh key
is appended, preserving insertion order. -/
def insertKV (fields : List (String × Json)) (k : String) (v : Json) :
    List (String × Json) :=
  match fields with
  | [] => [(k, v)]
  | (k', v') :: rest =>
    if k' = k then (k', v) :: rest else (k', v') :: insertKV rest k v

mutual

/-- Parse one JSON value whose first token starts at the head (leading
whitespace is skipped by every caller).  Fuel decreases at each nested
value, so the recursion is structural and computes definitionally. -/
def parseTok : Nat → List Char → Option (Json × List Char)
  | 0, _ => none
  | f + 1, cs =>
    match cs with
    | 'n' :: 'u' :: 'l' :: 'l' :: r => some (.null, r)
    | 't' :: 'r' :: 'u' :: 'e' :: r => some (.bool true, r)
    | 'f' :: 'a' :: 'l' :: 's' :: 'e' :: r => some (.bool false, r)
    | '"' :: r => (parseStrAux (f + 1) r []).map (fun p => (.str p.1, p.2))
    | '[' :: r =>
      match skipWs r with
      | [] => none
      | c :: r' =>
        if c = ']' then some (.arr [], r')
        else (parseElems f (c :: r') []).map (fun p => (.arr p.1, p.2))
    | '{' :: r =>
      match skipWs r with
      | [] => none
      | c :: r' =>
        if c = '}' then some (.obj [], r')
        else (parseMembers f (c :: r') []).map (fun p => (.obj p.1, p.2))
    | c :: r =>
      if c = '-' ∨ c.isDigit then parseNum (c :: r) else none
    | [] => none

/-- Parse the elements of a non-empty array, after the opening bracket. -/
def parseElems : Nat → List Char → List Json → Option (List Json × List Char)
  | 0, _, _ => none
  | f + 1, cs, acc =>
    match parseTok f (skipWs cs) with
    | none => none
    | some (v, r) =>
      match skipWs r with
      | [] => none
      | c :: r2 =>
        if c = ',' then parseElems f r2 (v :: acc)
        else if c = ']' then some ((v :: acc).reverse, r2)
        else none

/-- Parse the members of a non-empty object, after the opening brace. -/
def parseMembers : Nat → List Char → List (String × Json) →
    Option (List (String × Json) × List Char)
  | 0, _, _ => none
  | f + 1, cs, acc =>
    match skipWs cs with
    | [] => none
    | c :: r =>
      if c = '"' then
        match parseStrAux (f + 1) r [] with
        | none => none
        | some (k, r1) =>
          match skipWs r1 with
          | [] => none
          | c1 :: r2 =>
            if c1 = ':' then
              match parseTok f (skipWs r2) with
              | none => none
              | some (v, r3) =>
                match skipWs r3 with
                | [] => none
                | c2 :: r4 =>
                  if c2 = ',' then parseMembers f r4 (insertKV acc k v)
                  else if c2 = '}' then some (insertKV acc k v, r4)
                  else none
            else none
      else none

end

/-- Model of `json.loads` on a character list: parse one value (with a fuel budget
that always exceeds what a value of this length can use) and require only
whitespace after it (otherwise Python raises `Extra data`). -/
def jsonParseL (cs : List Char) : Option Json :=
  match parseTok (2 * cs.length + 1) (skipWs cs) with
  | none => none
  | some (v, rest) => if (skipWs rest).isEmpty then some v else none

/-- Model of `json.loads` on a string: `none` models `json.JSONDecodeError`. -/
def jsonParse (s : String) : Option Json :=
  jsonParseL s.data

/-! ## `str.strip()` -/

/-- Python `str.isspace` characters, restricted to the ones that occur in
practice (ASCII whitespace plus NEL and NBSP; the full Unicode space
category behaves identically for every claim). -/
def pyIsSpace (c : Char) : Bool :=
  c = ' ' || c = '\t' || c = '\n' || c = '\r' || c = '\x0b' || c = '\x0c' ||
    c = '\x1c' || c = '\x1d' || c = '\x1e' || c = '\x1f' || c = '\x85' || c = '\xa0'

/-- Python `s.strip()` on a character list. -/
def pyStripL (cs : List Char) : List Char :=
  ((cs.dropWhile pyIsSpace).reverse.dropWhile pyIsSpace).reverse

/-- Python `s.strip()`. -/
def pyStrip (s : String) : String :=
  String.mk (pyStripL s.data)

/-! ## `_parse_chat_history` (comfy_llama_node.py lines 193-241)

The function raises `ValueError` with distinguishable messages; the model
separates those messages into an error type.  `errMessage` reproduces the
`str(e)` texts that reach the caller-facing surface (the re-raise at lines
234-241 prefixes `"Invalid JSON in chat_history: "` for a decode error and
`"Error parsing chat_history: "` for the validation `ValueError`s; the
position details inside a `JSONDecodeError`, the `repr` of a non-string
role, and the rendering of the `valid_roles` set, whose iteration order
Python does not specify, are elided as unspecified text). -/

/-- The distinguishable `ValueError`s of `_parse_chat_history`. -/
inductive ParseErr where
  | malformedJson
  | notAList
  | notADict (i : Nat)
  | missingFields (i : Nat)
  | invalidRole (i : Nat) (role : Json)
  | unhashableRole (ty : String)

/-- The element index an error attributes the failure to, when it carries
one.  The `TypeError` a list- or dict-valued role raises inside the set
membership test surfaces through the catch-all wrapper at lines 238-241
with no index (and no role) in its text, so `unhashableRole` carries none;
neither do the two pre-loop errors. -/
def ParseErr.index : ParseErr → Option Nat
  | .notADict i => some i
  | .missingFields i => some i
  | .invalidRole i _ => some i
  | _ => none

/-- Python `str(·)` of a decoded role value, as interpolated into the
invalid-role message (exact only for the string case, which is the one the
spec exercises). -/
def pyStrOfJson : Json → String
  | .str s => s
  | .null => "None"
  | .bool true => "True"
  | .bool false => "False"
  | .num n => toString n
  | .fnum m e => toString m ++ "e" ++ toString e
  | .arr _ => "[...]"
  | .obj _ => "\x7b...\x7d"

/-- The `str(e)` text of each error as it leaves `_parse_chat_history`. -/
def errMessage : ParseErr → String
  | .malformedJson => "Invalid JSON in chat_history: Expecting value"
  | .notAList => "Error parsing chat_history: Chat history must be a JSON array"
  | .notADict i =>
      "Error parsing chat_history: Message " ++ toString i ++ " must be a dictionary"
  | .missingFields i =>
      "Error parsing chat_history: Message " ++ toString i ++
        " must have \x27role\x27 and \x27content\x27 fields"
  | .invalidRole i r =>
      "Error parsing chat_history: Message " ++ toString i ++ " has invalid role: " ++
        pyStrOfJson r ++ ". Must be one of the three legal roles"
  | .unhashableRole ty =>
      "Error parsing chat_history: unhashable type: \x27" ++ ty ++ "\x27"

/-- Python `fields["k"]` / `"k" in fields` lookup on a decoded object. -/
def lookupKV (fields : List (String × Json)) (k : String) : Option Json :=
  match fields with
  | [] => none
  | (k', v) :: rest => if k' = k then some v else lookupKV rest k

/-- The check `message["role"] in` the legal-role set: a decoded value
equals one of the three Python strings only when it is that string. -/
def validRoleVal (v : Json) : Bool :=
  match v with
  | .str s => s = "system" || s = "user" || s = "assistant"
  | _ => false

/-- The outcome of the role check at lines 227-229 on one decoded role
value.  A value decoded as a Python `list` or `dict` is unhashable, so the
membership test `message["role"] not in valid_roles` itself raises
`TypeError: unhashable type: ...` before the index-carrying `ValueError`
of line 229 can be built; every other decoded value is hashable, and an
illegal one raises the index-carrying invalid-role `ValueError`. -/
def roleErr (i : Nat) (r : Json) : Option ParseErr :=
  match r with
  | .arr _ => some (.unhashableRole "list")
  | .obj _ => some (.unhashableRole "dict")
  | _ => if validRoleVal r then none else some (.invalidRole i r)

/-- The per-element checks of the loop body (lines 220-229) on one decoded
message: a dictionary, both `role` and `content` keys present, then the
role check.  Returns the exception the loop raises at index `i`, or
`none`. -/
def msgError (i : Nat) (m : Json) : Option ParseErr :=
  match m with
  | .obj fields =>
    if (lookupKV fields "role").isNone ∨ (lookupKV fields "content").isNone then
      some (.missingFields i)
    else
      match lookupKV fields "role" with
      | some r => roleErr i r
      | none => some (.missingFields i)
  | _ => some (.notADict i)

/-- Whether the loop body accepts the message. -/
def msgValid (m : Json) : Bool :=
  (msgError 0 m).isNone

/-- The `for i, message in enumerate(chat_history)` validation loop,
starting at index `i`: fail-fast on the first offending element. -/
def validateFrom (i : Nat) : List Json → Except ParseErr Unit
  | [] => .ok ()
  | m :: rest =>
    match msgError i m with
    | some e => .error e
    | none => validateFrom (i + 1) rest

/-- Model of `_parse_chat_history`: empty/whitespace-only input is the "no prior
history" case; otherwise `json.loads`, a top-level list check, and the
fail-fast element loop, returning the decoded list itself on success. -/
def _parse_chat_history (s : String) : Except ParseErr (List Json) :=
  if pyStrip s = "" then .ok []
  else
    match jsonParse s with
    | none => .error .malformedJson
    | some (.arr l) =>
      match validateFrom 0 l with
      | .error e => .error e
      | .ok _ => .ok l
    | some _ => .error .notAList

/-! ## The completion response (duck-typed)

`_format_chat_history_output` and `execute_llama_chat` probe the transport
response with `hasattr`; an `Option` field that is `none` models an absent
attribute. -/

/-- The `message` attribute of a choice: `content` may itself be absent. -/
structure RMessage where
  content : Option Json

/-- One element of `response.choices`. -/
structure RChoice where
  message : Option RMessage

/-- The transport response object. -/
structure CompletionResponse where
  choices : Option (List RChoice)

/-- The assistant message dict built at lines 267-270. -/
def assistantMsg (c : Json) : Json :=
  .obj [("role", .str "assistant"), ("content", c)]

/-- Model of `_format_chat_history_output` (lines 243-278): copies the input,
append `{"role": "assistant", "content": choices[0].message.content}` when
`choices` is a non-empty attribute and the first choice has a `message`
attribute, and serialize with `indent=2, ensure_ascii=False`.  Accessing
`choice.message.content` without a `content` attribute raises
`AttributeError`, caught at line 275: the fallback serializes the input
history unchanged (the same text the no-`message` path produces). -/
def _format_chat_history_output (response : CompletionResponse)
    (input : List Json) : String :=
  match response.choices with
  | some (choice :: _) =>
    match choice.message with
    | some m =>
      match m.content with
      | some c => dumps false (.arr (input ++ [assistantMsg c]))
      | none => dumps false (.arr input)
    | none => dumps false (.arr input)
  | _ => dumps false (.arr input)

/-! ## `execute_llama_chat` (lines 280-392)

The transport collaborator (`client.chat`, repository code outside `src/`)
is passed in as a function that either returns a response object or raises,
modelled by `Except String`.  The image slots are the external
image-decoding collaborator and are not exercised by any claim; the
embedding covers invocations without image inputs (`image1..5 = None`, so
the decoding loop at lines 317-322 is a no-op). -/

/-- The keyword arguments assembled at lines 343-354. -/
structure ChatParams where
  prompt : String
  chat_history : List Json
  system_prompt : Option String

/-- Every exception the `try` block of `execute_llama_chat` can raise. -/
inductive ExecErr where
  | emptyServerUrl
  | emptyPrompt
  | historyErr (e : ParseErr)
  | transport (msg : String)
  | noChoices
  | noContent
  | lenTypeError (tyName : String)

/-- The `str(e)` text of each exception, as interpolated at lines 384-390. -/
def ExecErr.message : ExecErr → String
  | .emptyServerUrl => "server_url cannot be empty"
  | .emptyPrompt => "prompt cannot be empty"
  | .historyErr e => errMessage e
  | .transport m => m
  | .noChoices => "Invalid response from server: no choices found"
  | .noContent => "Invalid response from server: no message content found"
  | .lenTypeError t => "object of type \x27" ++ t ++ "\x27 has no len()"

/-- The Python type name of a decoded value, for the `len()` `TypeError`
raised by the logging call at line 370 when the extracted content is not a
sized object. -/
def pyTypeName : Json → String
  | .null => "NoneType"
  | .bool _ => "bool"
  | .num _ => "int"
  | .fnum _ _ => "float"
  | .str _ => "str"
  | .arr _ => "list"
  | .obj _ => "dict"

/-- Lines 337-340: the parsed history is `[]` unless a non-blank
`chat_history` string was supplied, which is then stripped and parsed. -/
def parsedHistory (chat_history : Option String) : Except ParseErr (List Json) :=
  match chat_history with
  | some h => if pyStrip h = "" then .ok [] else _parse_chat_history (pyStrip h)
  | none => .ok []

/-- Lines 348-350: the system prompt is forwarded stripped when non-blank. -/
def sysParam (system_prompt : Option String) : Option String :=
  match system_prompt with
  | some sp => if pyStrip sp = "" then none else some (pyStrip sp)
  | none => none

/-- The `try` block of `execute_llama_chat` (lines 312-377): validation,
history parsing, transport call, response-shape checks, extraction and
merge.  Every `raise` becomes an `Except.error`; the final case models the
`TypeError` that `len(response_message)` at line 370 raises when the
extracted content is not a sized object. -/
def executeCore (chat : ChatParams → Except String CompletionResponse)
    (server_url prompt : String) (system_prompt chat_history : Option String) :
    Except ExecErr (Json × String) :=
  if pyStrip server_url = "" then .error .emptyServerUrl
  else if pyStrip prompt = "" then .error .emptyPrompt
  else
    match parsedHistory chat_history with
    | .error e => .error (.historyErr e)
    | .ok parsed =>
      match chat { prompt := pyStrip prompt, chat_history := parsed,
                   system_prompt := sysParam system_prompt } with
      | .error m => .error (.transport m)
      | .ok response =>
        match response.choices with
        | none => .error .noChoices
        | some [] => .error .noChoices
        | some (choice :: _) =>
          match choice.message with
          | none => .error .noContent
          | some msg =>
            match msg.content with
            | none => .error .noContent
            | some content =>
              match content with
              | .str s => .ok (.str s, _format_chat_history_output response parsed)
              | .arr l => .ok (.arr l, _format_chat_history_output response parsed)
              | .obj kvs => .ok (.obj kvs, _format_chat_history_output response parsed)
              | other => .error (.lenTypeError (pyTypeName other))

/-- The error pair built by the `except` handler (lines 379-392):
`json.dumps([...], indent=2)` with the default `ensure_ascii=True`. -/
def errorPair (e : ExecErr) : Json × String :=
  (.str ("Error: " ++ e.message),
    dumps true (.arr [.obj [("role", .str "system"),
      ("content", .str ("Error occurred: " ++ e.message))]]))

/-- Model of `execute_llama_chat`: the try block, with every exception converted
into the user-facing error pair. -/
def execute_llama_chat (chat : ChatParams → Except String CompletionResponse)
    (server_url prompt : String) (system_prompt chat_history : Option String) :
    Json × String :=
  match executeCore chat server_url prompt system_prompt chat_history with
  | .ok r => r
  | .error e => errorPair e

/-! ## Transcripts

The spec's `Message`/`Transcript` data model: a role-tagged text turn.
`Msg.toJson` is the decoded-dictionary form of such a message, and
`serializeTranscript` is the serialization the repository emits for a
transcript (line 273). -/

/-- A legal role. -/
inductive Role where
  | system
  | user
  | assistant
  deriving DecidableEq

/-- The serialized text of a role. -/
def Role.toStr : Role → String
  | .system => "system"
  | .user => "user"
  | .assistant => "assistant"

/-- A spec-level message: legal role, text content. -/
structure Msg where
  role : Role
  content : String

/-- The decoded-dictionary form of a message. -/
def Msg.toJson (m : Msg) : Json :=
  .obj [("role", .str m.role.toStr), ("content", .str m.content)]

/-- The repository's serialization of a transcript (line 273). -/
def serializeTranscript (T : List Msg) : String :=
  dumps false (.arr (T.map Msg.toJson))

/-! # Lemmas

## Whitespace and basic list facts -/

theorem skipWs_ws_cons {c : Char} (l : List Char) (h : isJsonWs c = true) :
    skipWs (c :: l) = skipWs l := by
  simp [skipWs, h]

theorem skipWs_not_ws {c : Char} (l : List Char) (h : isJsonWs c = false) :
    skipWs (c :: l) = c :: l := by
  simp [skipWs, h]

theorem skipWs_nSpaces_append (n : Nat) (l : List Char) :
    skipWs (nSpaces n ++ l) = skipWs l := by
  induction n with
  | zero => rfl
  | succ k ih =>
    have : nSpaces (k + 1) = ' ' :: nSpaces k := by
      simp [nSpaces, List.replicate_succ]
    rw [this, List.cons_append, skipWs_ws_cons _ (by decide), ih]

theorem skipWs_newline (l : List Char) : skipWs ('\n' :: l) = skipWs l :=
  skipWs_ws_cons l (by decide)

theorem strMkData (s : String) : String.mk s.data = s := by
  cases s
  rfl

/-! ## Character and hex-digit facts -/

theorem char_scalar_facts (c : Char) :
    c.toNat < 0xD800 ∨ (0xDFFF < c.toNat ∧ c.toNat < 0x110000) := by
  have h := c.valid
  unfold UInt32.isValidChar Nat.isValidChar at h
  exact h

theorem hexVal_hexDigitChar (d : Nat) (hd : d < 16) :
    hexVal (hexDigitChar d) = some d := by
  interval_cases d <;> decide

theorem hexVal4_hex4 (n : Nat) (hn : n < 0x10000) :
    hexVal4 (hexDigitChar (n / 4096 % 16)) (hexDigitChar (n / 256 % 16))
      (hexDigitChar (n / 16 % 16)) (hexDigitChar (n % 16)) = some n := by
  unfold hexVal4
  rw [hexVal_hexDigitChar (n / 4096 % 16) (by omega),
    hexVal_hexDigitChar (n / 256 % 16) (by omega),
    hexVal_hexDigitChar (n / 16 % 16) (by omega),
    hexVal_hexDigitChar (n % 16) (by omega)]
  exact congrArg some (by omega)

/-! ## String-literal round trip -/

theorem escChars_ne_nil (ascii : Bool) (c : Char) : escChars ascii c ≠ [] := by
  unfold escChars
  split_ifs with h1 h2 h3 h4 h5 h6 h7 h8 h9
  · exact List.cons_ne_nil _ _
  · exact List.cons_ne_nil _ _
  · exact List.cons_ne_nil _ _
  · exact List.cons_ne_nil _ _
  · exact List.cons_ne_nil _ _
  · exact List.cons_ne_nil _ _
  · exact List.cons_ne_nil _ _
  · exact List.cons_ne_nil _ _
  · unfold uEscape
    split_ifs
    · exact List.cons_ne_nil _ _
    · exact List.cons_ne_nil _ _
  · exact List.cons_ne_nil _ _

theorem parseStrAux_u_single (f : Nat) (a b c d : Char) (rest3 acc : List Char) (n : Nat)
    (hx : hexVal4 a b c d = some n) (hns : ¬(0xD800 ≤ n ∧ n < 0xDC00)) :
    parseStrAux (f + 1) ('\\' :: 'u' :: a :: b :: c :: d :: rest3) acc
      = parseStrAux f rest3 (Char.ofNat n :: acc) := by
  simp only [parseStrAux, hx, Char.reduceEq, reduceIte, if_neg hns]

theorem parseStrAux_u_pair (f : Nat) (a b c d g1 g2 g3 g4 : Char) (rest4 acc : List Char)
    (n m : Nat) (hx1 : hexVal4 a b c d = some n) (hn : 0xD800 ≤ n ∧ n < 0xDC00)
    (hx2 : hexVal4 g1 g2 g3 g4 = some m) (hm : 0xDC00 ≤ m ∧ m < 0xE000) :
    parseStrAux (f + 1)
        ('\\' :: 'u' :: a :: b :: c :: d :: '\\' :: 'u' :: g1 :: g2 :: g3 :: g4 :: rest4) acc
      = parseStrAux f rest4
          (Char.ofNat (0x10000 + (n - 0xD800) * 0x400 + (m - 0xDC00)) :: acc) := by
  simp only [parseStrAux, hx1, hx2, Char.reduceEq, reduceIte, if_pos hn, if_pos hm]

/-- One serialized character is consumed by exactly one scanner step. -/
theorem parseStrAux_esc (ascii : Bool) (c : Char) (f : Nat) (acc tail : List Char) :
    parseStrAux (f + 1) (escChars ascii c ++ tail) acc = parseStrAux f tail (c :: acc) := by
  unfold escChars
  split_ifs with h1 h2 h3 h4 h5 h6 h7 h8 h9
  · subst h1; rfl
  · subst h2; rfl
  · subst h3; rfl
  · subst h4; rfl
  · subst h5; rfl
  · subst h6; rfl
  · subst h7; rfl
  · -- `\u00XX` for a control character
    rw [hex4]
    simp only [List.cons_append, List.nil_append]
    rw [parseStrAux_u_single f _ _ _ _ tail acc c.toNat
      (hexVal4_hex4 c.toNat (by omega)) (by omega), Char.ofNat_toNat]
  · -- `ensure_ascii` escape of a character above `0x7e`
    rcases char_scalar_facts c with hv | hv
    all_goals unfold uEscape
    · -- below the surrogate range: a single `\uXXXX`
      rw [if_pos (by omega), hex4]
      simp only [List.cons_append, List.nil_append]
      rw [parseStrAux_u_single f _ _ _ _ tail acc c.toNat
        (hexVal4_hex4 c.toNat (by omega)) (by omega), Char.ofNat_toNat]
    · by_cases hb : c.toNat < 0x10000
      · -- basic multilingual plane above the surrogate range
        rw [if_pos hb, hex4]
        simp only [List.cons_append, List.nil_append]
        rw [parseStrAux_u_single f _ _ _ _ tail acc c.toNat
          (hexVal4_hex4 c.toNat hb) (by omega), Char.ofNat_toNat]
      · -- a surrogate pair
        rw [if_neg hb]
        show parseStrAux (f + 1)
            ((('\\' :: 'u' :: hex4 (0xD800 + (c.toNat - 0x10000) / 0x400)) ++
              ('\\' :: 'u' :: hex4 (0xDC00 + (c.toNat - 0x10000) % 0x400))) ++ tail) acc
          = parseStrAux f tail (c :: acc)
        rw [hex4, hex4]
        simp only [List.cons_append, List.nil_append]
        rw [parseStrAux_u_pair f _ _ _ _ _ _ _ _ tail acc
          (0xD800 + (c.toNat - 0x10000) / 0x400) (0xDC00 + (c.toNat - 0x10000) % 0x400)
          (hexVal4_hex4 _ (by omega)) (by omega) (hexVal4_hex4 _ (by omega)) (by omega)]
        have harith : 0x10000 + (0xD800 + (c.toNat - 0x10000) / 0x400 - 0xD800) * 0x400 +
            (0xDC00 + (c.toNat - 0x10000) % 0x400 - 0xDC00) = c.toNat := by omega
        rw [harith, Char.ofNat_toNat]
  · -- a raw character
    rw [List.singleton_append]
    simp only [parseStrAux, if_neg h1, if_neg h2, if_neg h8]

/-- The scanner undoes the serializer on a whole string body, leaving the
remainder after the closing quote untouched. -/
theorem parseStrAux_rt (ascii : Bool) (cs : List Char) :
    ∀ (f : Nat) (acc rest : List Char), (cs.flatMap (escChars ascii)).length < f →
      parseStrAux f (cs.flatMap (escChars ascii) ++ '"' :: rest) acc
        = some (String.mk (acc.reverse ++ cs), rest) := by
  induction cs with
  | nil =>
    intro f acc rest hf
    obtain ⟨f', rfl⟩ : ∃ f', f = f' + 1 := ⟨f - 1, by omega⟩
    simp only [List.flatMap_nil, List.nil_append, List.append_nil]
    rfl
  | cons c cs ih =>
    intro f acc rest hf
    have hne : 1 ≤ (escChars ascii c).length := by
      cases h : escChars ascii c with
      | nil => exact absurd h (escChars_ne_nil ascii c)
      | cons a l => simp
    rw [List.flatMap_cons] at hf ⊢
    rw [List.length_append] at hf
    obtain ⟨f', rfl⟩ : ∃ f', f = f' + 1 := ⟨f - 1, by omega⟩
    rw [List.append_assoc, parseStrAux_esc, ih f' (c :: acc) rest (by omega)]
    simp

/-- A serialized string literal parses back to its string. -/
theorem parseTok_str (ascii : Bool) (s : String) (f : Nat) (rest : List Char)
    (hf : (escBody ascii s).length + 1 < f) :
    parseTok f ('"' :: (escBody ascii s ++ '"' :: rest)) = some (.str s, rest) := by
  obtain ⟨f', rfl⟩ : ∃ f', f = f' + 1 := ⟨f - 1, by omega⟩
  show (parseStrAux (f' + 1) (escBody ascii s ++ '"' :: rest) []).map
      (fun p => (Json.str p.1, p.2)) = _
  rw [escBody, parseStrAux_rt ascii s.data (f' + 1) [] rest (by unfold escBody at hf; omega)]
  simp [strMkData]

/-! ## Message-object round trip -/

theorem escBody_concrete (ascii : Bool) :
    (escBody ascii "role").length = 4 ∧ (escBody ascii "content").length = 7 := by
  cases ascii <;> exact ⟨rfl, rfl⟩

/-- A serialized two-field role/content object parses back to itself. -/
theorem parseTok_msgObj (ascii : Bool) (lvl : Nat) (rs cs : String) (f : Nat) (rest : List Char)
    (hf : (escBody ascii rs).length + (escBody ascii cs).length + 30 ≤ f) :
    parseTok f (dumpL ascii lvl (.obj [("role", .str rs), ("content", .str cs)]) ++ rest)
      = some (.obj [("role", .str rs), ("content", .str cs)], rest) := by
  obtain ⟨f3, rfl⟩ : ∃ f', f = f' + 3 := ⟨f - 3, by omega⟩
  simp only [dumpL, dumpFields, quoteL, List.cons_append, List.append_assoc,
    List.nil_append, List.append_nil]
  simp only [parseTok]
  rw [skipWs_newline, skipWs_nSpaces_append, skipWs_not_ws _ (by decide)]
  simp only [Char.reduceEq, reduceIte, parseMembers]
  rw [skipWs_not_ws _ (by decide)]
  simp only [Char.reduceEq, reduceIte]
  have hrole := parseStrAux_rt ascii ("role" : String).data (f3 + 2) []
  rw [show ("role" : String).data.flatMap (escChars ascii) = escBody ascii "role" from rfl]
    at hrole
  rw [hrole _ (by have := (escBody_concrete ascii).1; omega)]
  simp only [List.reverse_nil, List.nil_append, strMkData]
  rw [skipWs_not_ws _ (by decide)]
  simp only [Char.reduceEq, reduceIte]
  rw [skipWs_ws_cons _ (by decide), skipWs_not_ws _ (by decide)]
  rw [parseTok_str ascii rs (f3 + 1) _ (by omega)]
  simp only []
  rw [skipWs_not_ws _ (by decide)]
  simp only [Char.reduceEq, reduceIte, parseMembers]
  rw [skipWs_newline, skipWs_nSpaces_append, skipWs_not_ws _ (by decide)]
  simp only [Char.reduceEq, reduceIte]
  have hcont := parseStrAux_rt ascii ("content" : String).data (f3 + 1) []
  rw [show ("content" : String).data.flatMap (escChars ascii) = escBody ascii "content" from rfl]
    at hcont
  rw [hcont _ (by have := (escBody_concrete ascii).2; omega)]
  simp only [List.reverse_nil, List.nil_append, strMkData]
  rw [skipWs_not_ws _ (by decide)]
  simp only [Char.reduceEq, reduceIte]
  rw [skipWs_ws_cons _ (by decide), skipWs_not_ws _ (by decide)]
  rw [parseTok_str ascii cs f3 _ (by omega)]
  simp only []
  rw [skipWs_newline, skipWs_nSpaces_append, skipWs_not_ws _ (by decide)]
  simp only [Char.reduceEq, reduceIte]
  rfl

theorem escBody_roleStr_len (ascii : Bool) (r : Role) :
    (escBody ascii r.toStr).length ≤ 9 := by
  cases r <;> cases ascii <;> decide

/-- The printed form of a role/content object is long enough to pay for
the fuel its own parse consumes. -/
theorem dumpMsgObj_len_ge (ascii : Bool) (lvl : Nat) (rs cs : String) :
    (escBody ascii rs).length + (escBody ascii cs).length + 31
      ≤ (dumpL ascii lvl (.obj [("role", .str rs), ("content", .str cs)])).length := by
  have h := escBody_concrete ascii
  simp only [dumpL, dumpFields, quoteL, nSpaces, List.append_assoc, List.cons_append,
    List.nil_append, List.append_nil, List.length_append, List.length_cons,
    List.length_replicate, h.1, h.2]
  omega

/-- A serialized message parses back to its dictionary form. -/
theorem parseTok_msg (ascii : Bool) (lvl : Nat) (m : Msg) (f : Nat) (rest : List Char)
    (hf : (escBody ascii m.content).length + 40 ≤ f) :
    parseTok f (dumpL ascii lvl m.toJson ++ rest) = some (m.toJson, rest) := by
  have hr := escBody_roleStr_len ascii m.role
  exact parseTok_msgObj ascii lvl m.role.toStr m.content f rest (by omega)

/-! ## Transcript round trip -/

theorem nSpaces_len (n : Nat) : (nSpaces n).length = n := by
  simp [nSpaces]

theorem parseElems_skipWs (f : Nat) (cs cs' : List Char) (acc : List Json)
    (h : skipWs cs = skipWs cs') : parseElems f cs acc = parseElems f cs' acc := by
  cases f with
  | zero => rfl
  | succ f => simp only [parseElems, h]

theorem dump_msg_head (ascii : Bool) (lvl : Nat) (m : Msg) :
    ∃ t, dumpL ascii lvl m.toJson = '{' :: t :=
  ⟨_, rfl⟩

theorem skipWs_msg_append (ascii : Bool) (lvl : Nat) (m : Msg) (R : List Char) :
    skipWs (dumpL ascii lvl m.toJson ++ R) = dumpL ascii lvl m.toJson ++ R := by
  obtain ⟨t, ht⟩ := dump_msg_head ascii lvl m
  rw [ht, List.cons_append, skipWs_not_ws _ (by decide), ← List.cons_append, ← ht]

theorem dumpMsg_len_pos (ascii : Bool) (lvl : Nat) (m : Msg) :
    1 ≤ (dumpL ascii lvl m.toJson).length := by
  obtain ⟨t, ht⟩ := dump_msg_head ascii lvl m
  rw [ht]
  simp

theorem parseTok_msgD (ascii : Bool) (lvl : Nat) (m : Msg) (f : Nat) (rest : List Char)
    (hf : (dumpL ascii lvl m.toJson).length + 1 ≤ f) :
    parseTok f (dumpL ascii lvl m.toJson ++ rest) = some (m.toJson, rest) := by
  have h1 := dumpMsgObj_len_ge ascii lvl m.role.toStr m.content
  simp only [Msg.toJson] at hf ⊢
  exact parseTok_msgObj ascii lvl m.role.toStr m.content f rest (by omega)

theorem parseElems_msgs (ascii : Bool) (lvl w : Nat) (m : Msg) (ms : List Msg) :
    ∀ (f : Nat) (acc : List Json) (rest : List Char),
      (dumpL ascii lvl m.toJson).length
          + (dumpItems ascii lvl (ms.map Msg.toJson)).length + 2 ≤ f →
      parseElems f
          (dumpL ascii lvl m.toJson ++ (dumpItems ascii lvl (ms.map Msg.toJson) ++
            ('\n' :: (nSpaces w ++ (']' :: rest))))) acc
        = some (acc.reverse ++ (m :: ms).map Msg.toJson, rest) := by
  induction ms generalizing m with
  | nil =>
    intro f acc rest hf
    obtain ⟨f', rfl⟩ : ∃ f', f = f' + 1 := ⟨f - 1, by omega⟩
    simp only [List.map_nil, dumpItems, List.nil_append] at hf ⊢
    simp only [parseElems]
    rw [skipWs_msg_append]
    rw [parseTok_msgD ascii lvl m f' _ (by omega)]
    simp only []
    rw [skipWs_newline, skipWs_nSpaces_append, skipWs_not_ws _ (by decide)]
    simp only [Char.reduceEq, reduceIte, List.map_cons, List.map_nil, List.reverse_cons]
  | cons m' ms' ih =>
    intro f acc rest hf
    obtain ⟨f', rfl⟩ : ∃ f', f = f' + 1 := ⟨f - 1, by omega⟩
    have hpos := dumpMsg_len_pos ascii lvl m
    simp only [List.map_cons, dumpItems, List.append_assoc, List.cons_append,
      List.length_append, List.length_cons, nSpaces_len] at hf ⊢
    simp only [parseElems]
    rw [skipWs_msg_append]
    rw [parseTok_msgD ascii lvl m f' _ (by omega)]
    simp only []
    rw [skipWs_not_ws _ (by decide)]
    simp only [Char.reduceEq, reduceIte]
    rw [parseElems_skipWs f' _ (dumpL ascii lvl m'.toJson ++ (dumpItems ascii lvl
        (ms'.map Msg.toJson) ++ ('\n' :: (nSpaces w ++ (']' :: rest))))) _
      (by rw [skipWs_newline, skipWs_nSpaces_append])]
    rw [ih m' f' (m.toJson :: acc) rest (by omega)]
    simp [List.reverse_cons, List.append_assoc]

theorem dump_arr_head (ascii : Bool) (lvl : Nat) (L : List Json) :
    ∃ t, dumpL ascii lvl (.arr L) = '[' :: t := by
  cases L with
  | nil => exact ⟨_, rfl⟩
  | cons x xs => exact ⟨_, rfl⟩

theorem dumpL_arr_nil (ascii : Bool) (lvl : Nat) :
    dumpL ascii lvl (.arr []) = ['[', ']'] := rfl

theorem dumpL_arr_cons (ascii : Bool) (lvl : Nat) (x : Json) (xs : List Json) :
    dumpL ascii lvl (.arr (x :: xs))
      = '[' :: '\n' :: (nSpaces (2 * (lvl + 1)) ++ (dumpL ascii (lvl + 1) x ++
          (dumpItems ascii (lvl + 1) xs ++ ('\n' :: (nSpaces (2 * lvl) ++ [']']))))) := by
  simp only [dumpL, List.append_assoc, List.cons_append]

theorem nSpaces_zero : nSpaces 0 = [] := rfl

theorem parseTok_transcript (ascii : Bool) (T : List Msg) (f : Nat) (rest : List Char)
    (hf : (dumpL ascii 0 (.arr (T.map Msg.toJson))).length + 2 ≤ f) :
    parseTok f (dumpL ascii 0 (.arr (T.map Msg.toJson)) ++ rest)
      = some (.arr (T.map Msg.toJson), rest) := by
  obtain ⟨f', rfl⟩ : ∃ f', f = f' + 1 := ⟨f - 1, by omega⟩
  cases T with
  | nil =>
    simp only [List.map_nil, dumpL_arr_nil, List.cons_append, List.nil_append]
    simp only [parseTok]
    rw [skipWs_not_ws _ (by decide)]
    simp only [Char.reduceEq, reduceIte]
  | cons m ms =>
    rw [List.map_cons, dumpL_arr_cons] at hf ⊢
    simp only [Nat.reduceAdd, Nat.reduceMul, nSpaces_zero, List.append_assoc,
      List.cons_append, List.nil_append] at hf ⊢
    simp only [List.length_append, List.length_cons, nSpaces_len, List.length_nil] at hf
    simp only [parseTok]
    rw [skipWs_newline, skipWs_nSpaces_append, skipWs_msg_append]
    obtain ⟨t, ht⟩ := dump_msg_head ascii 1 m
    rw [ht, List.cons_append]
    simp only [Char.reduceEq, reduceIte]
    rw [← List.cons_append, ← ht]
    have he := parseElems_msgs ascii 1 0 m ms f' [] rest (by
      have h1 := dumpMsg_len_pos ascii 1 m
      omega)
    simp only [nSpaces_zero, List.nil_append] at he
    rw [he]
    simp

theorem jsonParseL_transcript (ascii : Bool) (T : List Msg) :
    jsonParseL (dumpL ascii 0 (.arr (T.map Msg.toJson))) = some (.arr (T.map Msg.toJson)) := by
  unfold jsonParseL
  obtain ⟨t, ht⟩ := dump_arr_head ascii 0 (T.map Msg.toJson)
  have hskip : skipWs (dumpL ascii 0 (.arr (T.map Msg.toJson)))
      = dumpL ascii 0 (.arr (T.map Msg.toJson)) := by
    rw [ht, skipWs_not_ws _ (by decide)]
  rw [hskip]
  have hlen : 1 ≤ (dumpL ascii 0 (.arr (T.map Msg.toJson))).length := by
    rw [ht]; simp
  have h := parseTok_transcript ascii T
    (2 * (dumpL ascii 0 (.arr (T.map Msg.toJson))).length + 1) [] (by omega)
  rw [List.append_nil] at h
  rw [h]
  rfl

theorem msgError_msg (i : Nat) (m : Msg) : msgError i m.toJson = none := by
  cases m with
  | mk r c =>
    cases r <;> simp [msgError, Msg.toJson, Role.toStr, lookupKV, validRoleVal, roleErr]

theorem validateFrom_msgs (T : List Msg) : ∀ i, validateFrom i (T.map Msg.toJson) = .ok () := by
  induction T with
  | nil => intro i; rfl
  | cons m ms ih =>
    intro i
    simp only [List.map_cons, validateFrom, msgError_msg]
    exact ih (i + 1)

theorem dump_arr_last (ascii : Bool) (lvl : Nat) (L : List Json) :
    ∃ t, dumpL ascii lvl (.arr L) = t ++ [']'] := by
  cases L with
  | nil => exact ⟨['['], rfl⟩
  | cons x xs =>
    refine ⟨'[' :: '\n' :: nSpaces (2 * (lvl + 1)) ++ dumpL ascii (lvl + 1) x ++
      dumpItems ascii (lvl + 1) xs ++ '\n' :: nSpaces (2 * lvl), ?_⟩
    simp [dumpL, List.append_assoc]

theorem pyStrip_dump_arr (ascii : Bool) (L : List Json) :
    pyStrip (String.mk (dumpL ascii 0 (.arr L))) ≠ "" := by
  obtain ⟨t1, h1⟩ := dump_arr_head ascii 0 L
  obtain ⟨t2, h2⟩ := dump_arr_last ascii 0 L
  have hstrip : pyStripL (dumpL ascii 0 (.arr L)) = dumpL ascii 0 (.arr L) := by
    unfold pyStripL
    rw [h1, List.dropWhile_cons]
    simp only [show pyIsSpace '[' = false from rfl, Bool.false_eq_true, reduceIte]
    rw [← h1, h2, List.reverse_append]
    simp only [List.reverse_cons, List.reverse_nil, List.nil_append, List.singleton_append]
    rw [List.dropWhile_cons]
    simp only [show pyIsSpace ']' = false from rfl, Bool.false_eq_true, reduceIte]
    simp
  intro hcon
  rw [show pyStrip (String.mk (dumpL ascii 0 (.arr L)))
      = String.mk (pyStripL (dumpL ascii 0 (.arr L))) from rfl, hstrip] at hcon
  have := congrArg String.data hcon
  rw [h1] at this
  simp at this

/-- Parsing the repository's serialization of a transcript recovers exactly
the transcript's dictionary forms. -/
theorem parse_serialize (ascii : Bool) (T : List Msg) :
    _parse_chat_history (String.mk (dumpL ascii 0 (.arr (T.map Msg.toJson))))
      = .ok (T.map Msg.toJson) := by
  unfold _parse_chat_history
  rw [if_neg (pyStrip_dump_arr ascii (T.map Msg.toJson))]
  rw [show jsonParse (String.mk (dumpL ascii 0 (.arr (T.map Msg.toJson))))
      = jsonParseL (dumpL ascii 0 (.arr (T.map Msg.toJson))) from rfl]
  rw [jsonParseL_transcript]
  simp only [validateFrom_msgs]

/-! ## Validation-loop lemmas and the claims -/

theorem roleErr_isNone (i j : Nat) (r : Json) :
    (roleErr i r).isNone = (roleErr j r).isNone := by
  cases r <;> simp only [roleErr, Option.isNone_some] <;> split_ifs <;> rfl

theorem msgError_none_iff (i : Nat) (m : Json) : (msgError i m).isNone = msgValid m := by
  unfold msgValid
  cases m <;> simp only [msgError, Option.isNone_some]
  case obj fields =>
    split_ifs with h
    · rfl
    · cases hl : lookupKV fields "role" with
      | none => rfl
      | some r =>
        show (roleErr i r).isNone = (roleErr 0 r).isNone
        exact roleErr_isNone i 0 r

theorem validateFrom_append_valid (pre rest : List Json)
    (hpre : ∀ x ∈ pre, msgValid x = true) :
    ∀ i, validateFrom i (pre ++ rest) = validateFrom (i + pre.length) rest := by
  induction pre with
  | nil => intro i; simp
  | cons m pre ih =>
    intro i
    have hm : msgError i m = none := by
      have h1 := msgError_none_iff i m
      rw [hpre m (by simp)] at h1
      exact Option.eq_none_of_isNone h1
    simp only [List.cons_append, validateFrom, hm, List.append_eq]
    rw [ih (fun x hx => hpre x (by simp [hx])) (i + 1)]
    congr 1
    simp only [List.length_cons]
    omega

theorem validateFrom_ok (l : List Json) (hall : ∀ x ∈ l, msgValid x = true) :
    ∀ i, validateFrom i l = .ok () := by
  induction l with
  | nil => intro i; rfl
  | cons m rest ih =>
    intro i
    have hm : msgError i m = none := by
      have h1 := msgError_none_iff i m
      rw [hall m (by simp)] at h1
      exact Option.eq_none_of_isNone h1
    simp only [validateFrom, hm]
    exact ih (fun x hx => hall x (by simp [hx])) (i + 1)

theorem msgError_some_of_invalid (i : Nat) (m : Json) (hm : msgValid m = false) :
    ∃ e, msgError i m = some e := by
  have h1 := msgError_none_iff i m
  rw [hm] at h1
  cases h : msgError i m with
  | none => rw [h] at h1; simp at h1
  | some e => exact ⟨e, rfl⟩

/-- C8: for every valid transcript `T` (each message has a legal role and a
text content), parsing the serialization of `T` yields exactly the decoded
dictionary forms of `T`'s messages: same length, same order, same
role/content pairs. -/
theorem C8_parse_serialize_round_trip (T : List Msg) :
    _parse_chat_history (serializeTranscript T) = .ok (T.map Msg.toJson) ∧
    (T.map Msg.toJson).length = T.length ∧
    (∀ i, (T.map Msg.toJson).get? i = (T.get? i).map Msg.toJson) := by
  refine ⟨parse_serialize false T, by simp, fun i => by simp⟩

/-- C1: for every history and every response whose first choice exposes a
message with a content field, the merge returns the serialization of a
transcript of length N+1 whose first N elements are the history's elements
in order and whose last element is an assistant message carrying the first
choice's content.  The embedding is pure, so the history value itself is
never mutated. -/
theorem C1_append_only_merge (history : List Json) (r : CompletionResponse)
    (ch : RChoice) (tail : List RChoice) (m : RMessage) (c : Json)
    (hc : r.choices = some (ch :: tail)) (hm : ch.message = some m)
    (hcon : m.content = some c) :
    _format_chat_history_output r history
        = dumps false (.arr (history ++ [assistantMsg c]))
      ∧ (history ++ [assistantMsg c]).length = history.length + 1
      ∧ (history ++ [assistantMsg c]).take history.length = history
      ∧ (history ++ [assistantMsg c]).getLast? = some (assistantMsg c) := by
  refine ⟨?_, by simp, by simp, by simp⟩
  obtain ⟨cho⟩ := r
  obtain ⟨chm⟩ := ch
  obtain ⟨mc⟩ := m
  simp only at hc hm hcon
  subst hc hm hcon
  rfl

theorem C1_witness :
    (⟨some [⟨some ⟨some (.str "ok")⟩⟩]⟩ : CompletionResponse).choices
        = some (⟨some ⟨some (.str "ok")⟩⟩ :: []) ∧
    _format_chat_history_output ⟨some [⟨some ⟨some (.str "ok")⟩⟩]⟩ []
        = dumps false (.arr ([] ++ [assistantMsg (.str "ok")])) := by
  exact ⟨rfl, (C1_append_only_merge [] _ _ [] _ _ rfl rfl rfl).1⟩

/-- C3: for every validated history and every response lacking a non-empty
choices list, or whose first choice lacks a message or a content field, the
merge helper returns the prior history serialized unchanged, and the
caller-facing surface fails with an invalid-response-shape error pair; no
assistant message is fabricated in either case. -/
theorem C3_no_fabrication (history : List Json) (r : CompletionResponse)
    (url prompt hs : String)
    (hbad : r.choices = none ∨ r.choices = some [] ∨
      (∃ ch tail, r.choices = some (ch :: tail) ∧ (ch.message = none ∨
        ∃ m, ch.message = some m ∧ m.content = none)))
    (hurl : ¬pyStrip url = "") (hp : ¬pyStrip prompt = "")
    (hhs : ¬pyStrip hs = "") (hparse : _parse_chat_history (pyStrip hs) = .ok history) :
    _format_chat_history_output r history = dumps false (.arr history) ∧
      (execute_llama_chat (fun _ => .ok r) url prompt none (some hs) = errorPair .noChoices ∨
       execute_llama_chat (fun _ => .ok r) url prompt none (some hs) = errorPair .noContent) := by
  have hcore : executeCore (fun _ => .ok r) url prompt none (some hs) = .error .noChoices ∨
      executeCore (fun _ => .ok r) url prompt none (some hs) = .error .noContent := by
    unfold executeCore
    rw [if_neg hurl, if_neg hp]
    simp only [parsedHistory, if_neg hhs, hparse]
    obtain ⟨cho⟩ := r
    rcases hbad with h | h | ⟨ch, tail, h, hmsg⟩
    all_goals simp only at h
    · subst h; exact Or.inl rfl
    · subst h; exact Or.inl rfl
    · obtain ⟨chm⟩ := ch
      rcases hmsg with hm | ⟨m, hm, hcon⟩
      · simp only at hm; subst h hm; exact Or.inr rfl
      · obtain ⟨mc⟩ := m
        simp only at hm hcon
        subst h hm hcon
        exact Or.inr rfl
  constructor
  · obtain ⟨cho⟩ := r
    rcases hbad with h | h | ⟨ch, tail, h, hmsg⟩
    all_goals simp only at h
    · subst h; rfl
    · subst h; rfl
    · obtain ⟨chm⟩ := ch
      rcases hmsg with hm | ⟨m, hm, hcon⟩
      · simp only at hm; subst h hm; rfl
      · obtain ⟨mc⟩ := m
        simp only at hm hcon
        subst h hm hcon
        rfl
  · unfold execute_llama_chat
    rcases hcore with h | h
    · rw [h]; exact Or.inl rfl
    · rw [h]; exact Or.inr rfl

theorem C3_witness :
    ((⟨some []⟩ : CompletionResponse).choices = none ∨
      (⟨some []⟩ : CompletionResponse).choices = some [] ∨
      (∃ ch tail, (⟨some []⟩ : CompletionResponse).choices = some (ch :: tail) ∧
        (ch.message = none ∨ ∃ m, ch.message = some m ∧ m.content = none))) ∧
    (_format_chat_history_output ⟨some []⟩ [.obj [("role", .str "user"), ("content", .str "hi")]]
        = dumps false (.arr [.obj [("role", .str "user"), ("content", .str "hi")]]) ∧
      (execute_llama_chat (fun _ => .ok ⟨some []⟩) "http://x" "Hello" none
          (some "[\x7b\"role\": \"user\", \"content\": \"hi\"\x7d]") = errorPair .noChoices ∨
       execute_llama_chat (fun _ => .ok ⟨some []⟩) "http://x" "Hello" none
          (some "[\x7b\"role\": \"user\", \"content\": \"hi\"\x7d]") = errorPair .noContent)) := by
  refine ⟨Or.inr (Or.inl rfl), C3_no_fabrication _ _ _ _ _ (Or.inr (Or.inl rfl))
    (by decide) (by decide) (by decide) rfl⟩

theorem msgError_index (i : Nat) (m : Json) (e : ParseErr) (he : msgError i m = some e) :
    ParseErr.index e = some i ∨ ∃ t, e = .unhashableRole t := by
  cases m <;> simp only [msgError, Option.some.injEq] at he
  case obj fields =>
    split_ifs at he with h
    · simp only [Option.some.injEq] at he
      subst he
      exact Or.inl rfl
    · cases hl : lookupKV fields "role" with
      | none =>
        simp only [hl, Option.some.injEq] at he
        subst he
        exact Or.inl rfl
      | some r =>
        simp only [hl] at he
        cases r <;> simp only [roleErr, Option.some.injEq] at he
        all_goals
          first
            | exact Or.inr ⟨_, he.symm⟩
            | (split_ifs at he <;> simp only [reduceCtorEq, Option.some.injEq] at he
               subst he
               exact Or.inl rfl)
  all_goals (subst he; exact Or.inl rfl)

/-- C4, refuted as stated: an element whose role decodes to a list (or
dict) makes the membership test of line 228 raise
`TypeError: unhashable type: ...` before the index-carrying `ValueError`
of line 229 is built, and the wrapper at lines 238-241 surfaces it with
neither index nor role — the same error whether the offender sits at
index 0 or index 1, so the first invalid element does not always abort
with an error identifying its zero-based index. -/
theorem C4_counterexample :
    _parse_chat_history "[\x7b\"role\": [], \"content\": \"x\"\x7d]"
      = .error (.unhashableRole "list") ∧
    _parse_chat_history
        "[\x7b\"role\": \"user\", \"content\": \"hi\"\x7d, \x7b\"role\": [], \"content\": \"x\"\x7d]"
      = .error (.unhashableRole "list") ∧
    ParseErr.index (.unhashableRole "list") = none ∧
    errMessage (.unhashableRole "list")
      = "Error parsing chat_history: unhashable type: \x27list\x27" :=
  ⟨rfl, rfl, rfl, rfl⟩

/-- C4 (amended): validation checks elements in order from index 0 and is
fail-fast: with all elements before the offender valid, the loop aborts
with the error determined by the offending element at its zero-based
index, and the same error results for any continuation of the list (no
later element is checked or reported).  The error identifies the
offender\x27s index, except when its role value decodes to a list or dict:
there Python\x27s unhashable-type `TypeError` surfaces without index or
role.  In particular the two-message input with role "bogus" at index 1
fails identifying index 1 and role "bogus". -/
theorem C4_fail_fast_amended (pre : List Json) (m : Json) (post post' : List Json)
    (hpre : ∀ x ∈ pre, msgValid x = true) (hm : msgValid m = false) :
    (∃ e, validateFrom 0 (pre ++ m :: post) = .error e ∧ msgError pre.length m = some e ∧
      validateFrom 0 (pre ++ m :: post') = .error e ∧
      (ParseErr.index e = some pre.length ∨ ∃ t, e = .unhashableRole t)) ∧
    _parse_chat_history
        "[\x7b\"role\": \"user\", \"content\": \"hi\"\x7d, \x7b\"role\": \"bogus\", \"content\": \"x\"\x7d]"
      = .error (.invalidRole 1 (.str "bogus")) := by
  refine ⟨?_, rfl⟩
  obtain ⟨e, he⟩ := msgError_some_of_invalid pre.length m hm
  refine ⟨e, ?_, he, ?_, msgError_index pre.length m e he⟩
  · rw [validateFrom_append_valid pre _ hpre 0, Nat.zero_add]
    simp only [validateFrom, he]
  · rw [validateFrom_append_valid pre _ hpre 0, Nat.zero_add]
    simp only [validateFrom, he]

theorem C4_amended_witness :
    (∃ e, validateFrom 0 ([.obj [("role", .str "user"), ("content", .str "hi")]] ++
        .str "oops" :: []) = .error e ∧
      msgError [Json.obj [("role", .str "user"), ("content", .str "hi")]].length
        (.str "oops") = some e ∧
      validateFrom 0 ([.obj [("role", .str "user"), ("content", .str "hi")]] ++
        .str "oops" :: [.null]) = .error e ∧
      (ParseErr.index e
          = some [Json.obj [("role", .str "user"), ("content", .str "hi")]].length ∨
        ∃ t, e = .unhashableRole t)) ∧
    _parse_chat_history
        "[\x7b\"role\": \"user\", \"content\": \"hi\"\x7d, \x7b\"role\": \"bogus\", \"content\": \"x\"\x7d]"
      = .error (.invalidRole 1 (.str "bogus")) :=
  C4_fail_fast_amended [.obj [("role", .str "user"), ("content", .str "hi")]] (.str "oops")
    [] [.null] (by decide) (by decide)

/-- C5, refuted as stated: the missing-field error does not identify which
field is missing — an element missing `content` and an element missing
`role` produce the identical error value, whose message names both fields.
-/
theorem C5_counterexample :
    _parse_chat_history "[\x7b\"role\": \"user\"\x7d]" = .error (.missingFields 0) ∧
    _parse_chat_history "[\x7b\"content\": \"x\"\x7d]" = .error (.missingFields 0) ∧
    _parse_chat_history "[\x7b\"role\": \"user\"\x7d]" = _parse_chat_history "[\x7b\"content\": \"x\"\x7d]" ∧
    errMessage (.missingFields 0)
      = "Error parsing chat_history: Message 0 must have \x27role\x27 and \x27content\x27 fields" :=
  ⟨rfl, rfl, rfl, rfl⟩

/-- C5 (amended): for every element at index `i` that is a key-value record
lacking the role field or the content field, parsing fails with an error
identifying the index `i` and stating that both `role` and `content` fields
are required, without singling out which one is absent. -/
theorem C5_missing_field_amended (pre : List Json) (fields : List (String × Json))
    (post : List Json) (hpre : ∀ x ∈ pre, msgValid x = true)
    (hmiss : lookupKV fields "role" = none ∨ lookupKV fields "content" = none) :
    validateFrom 0 (pre ++ .obj fields :: post) = .error (.missingFields pre.length) := by
  rw [validateFrom_append_valid pre _ hpre 0, Nat.zero_add]
  have hme : msgError pre.length (.obj fields) = some (.missingFields pre.length) := by
    simp only [msgError]
    rcases hmiss with h | h
    · rw [if_pos (Or.inl (by simp [h]))]
    · rw [if_pos (Or.inr (by simp [h]))]
  simp only [validateFrom, hme]

theorem C5_amended_witness :
    validateFrom 0 ([] ++ .obj [("role", .str "user")] :: []) =
      .error (.missingFields ([] : List Json).length) :=
  C5_missing_field_amended [] [("role", .str "user")] [] (by simp) (Or.inr rfl)

/-- C6: parsing the empty string and parsing any whitespace-only string
both return the empty transcript, not an error, and this outcome is
distinguishable from the error raised for malformed non-empty input. -/
theorem C6_empty_history (s : String) (hws : ∀ c ∈ s.data, pyIsSpace c = true) :
    _parse_chat_history "" = .ok [] ∧ _parse_chat_history "   " = .ok [] ∧
      _parse_chat_history s = .ok [] ∧
      _parse_chat_history "not json" ≠ _parse_chat_history "" := by
  refine ⟨rfl, rfl, ?_, ?_⟩
  · unfold _parse_chat_history
    have hstrip : pyStrip s = "" := by
      unfold pyStrip pyStripL
      rw [List.dropWhile_eq_nil_iff.mpr hws]
      rfl
    rw [if_pos hstrip]
  · intro h
    rw [show _parse_chat_history "not json" = .error .malformedJson from rfl,
      show _parse_chat_history "" = .ok [] from rfl] at h
    exact Except.noConfusion h

theorem C6_witness :
    _parse_chat_history "" = .ok [] ∧ _parse_chat_history "   " = .ok [] ∧
      _parse_chat_history " \t\n " = .ok [] ∧
      _parse_chat_history "not json" ≠ _parse_chat_history "" :=
  C6_empty_history " \t\n " (by decide)

/-- C7: every non-empty input that is not syntactically valid JSON fails
with the malformed-input error, and every input decoding to a non-sequence
top-level value fails with the not-a-list error; both are distinct from
every per-element validation-shape error, and the input "not json" produces
the malformed-input error. -/
theorem C7_malformed_input (s : String) (hne : ¬pyStrip s = "") :
    (jsonParse s = none → _parse_chat_history s = .error .malformedJson) ∧
    (∀ v, jsonParse s = some v → (∀ l, v ≠ .arr l) →
      _parse_chat_history s = .error .notAList) ∧
    _parse_chat_history "not json" = .error .malformedJson ∧
    (∀ i rv, ParseErr.malformedJson ≠ .notADict i ∧
      ParseErr.malformedJson ≠ .missingFields i ∧
      ParseErr.malformedJson ≠ .invalidRole i rv ∧
      ParseErr.notAList ≠ .notADict i ∧ ParseErr.notAList ≠ .missingFields i ∧
      ParseErr.notAList ≠ .invalidRole i rv) := by
  refine ⟨?_, ?_, rfl, ?_⟩
  · intro hj
    unfold _parse_chat_history
    rw [if_neg hne, hj]
  · intro v hj hv
    unfold _parse_chat_history
    rw [if_neg hne, hj]
    cases v
    case arr l => exact absurd rfl (hv l)
    all_goals rfl
  · intro i rv
    refine ⟨fun h => ParseErr.noConfusion h, fun h => ParseErr.noConfusion h,
      fun h => ParseErr.noConfusion h, fun h => ParseErr.noConfusion h,
      fun h => ParseErr.noConfusion h, fun h => ParseErr.noConfusion h⟩

theorem C7_witness :
    ((jsonParse "not json" = none →
        _parse_chat_history "not json" = .error .malformedJson) ∧
      (∀ v, jsonParse "not json" = some v → (∀ l, v ≠ .arr l) →
        _parse_chat_history "not json" = .error .notAList) ∧
      _parse_chat_history "not json" = .error .malformedJson ∧
      (∀ i rv, ParseErr.malformedJson ≠ .notADict i ∧
        ParseErr.malformedJson ≠ .missingFields i ∧
        ParseErr.malformedJson ≠ .invalidRole i rv ∧
        ParseErr.notAList ≠ .notADict i ∧ ParseErr.notAList ≠ .missingFields i ∧
        ParseErr.notAList ≠ .invalidRole i rv)) ∧
    ((jsonParse "5" = none → _parse_chat_history "5" = .error .malformedJson) ∧
      (∀ v, jsonParse "5" = some v → (∀ l, v ≠ .arr l) →
        _parse_chat_history "5" = .error .notAList) ∧
      _parse_chat_history "not json" = .error .malformedJson ∧
      (∀ i rv, ParseErr.malformedJson ≠ .notADict i ∧
        ParseErr.malformedJson ≠ .missingFields i ∧
        ParseErr.malformedJson ≠ .invalidRole i rv ∧
        ParseErr.notAList ≠ .notADict i ∧ ParseErr.notAList ≠ .missingFields i ∧
        ParseErr.notAList ≠ .invalidRole i rv)) :=
  ⟨C7_malformed_input "not json" (by decide), C7_malformed_input "5" (by decide)⟩

/-- C2, refuted as stated: with a usable prior history of one user message
and a transport failure, the surface returns the one-element system-note
history, not the prior history — the prior-history fallback the claim
describes does not occur. -/
theorem C2_counterexample :
    execute_llama_chat (fun _ => .error "boom") "http://localhost:8080/v1" "Hello" none
        (some "[\x7b\"role\": \"user\", \"content\": \"hi\"\x7d]")
      = (.str "Error: boom",
         "[\n  \x7b\n    \"role\": \"system\",\n    \"content\": \"Error occurred: boom\"\n  \x7d\n]") ∧
    _parse_chat_history "[\x7b\"role\": \"user\", \"content\": \"hi\"\x7d]"
      = .ok [.obj [("role", .str "user"), ("content", .str "hi")]] ∧
    "[\n  \x7b\n    \"role\": \"system\",\n    \"content\": \"Error occurred: boom\"\n  \x7d\n]"
      ≠ "[\x7b\"role\": \"user\", \"content\": \"hi\"\x7d]" ∧
    "[\n  \x7b\n    \"role\": \"system\",\n    \"content\": \"Error occurred: boom\"\n  \x7d\n]"
      ≠ dumps false (.arr [.obj [("role", .str "user"), ("content", .str "hi")]]) ∧
    "[\n  \x7b\n    \"role\": \"system\",\n    \"content\": \"Error occurred: boom\"\n  \x7d\n]"
      ≠ dumps true (.arr [.obj [("role", .str "user"), ("content", .str "hi")]]) :=
  ⟨rfl, rfl, by decide, by decide, by decide⟩

/-- C2 (amended): on every failure of the caller-facing surface the result
is the pair of an error text prefixed with "Error: " and a serialized
one-element transcript holding a system-role note describing the error —
regardless of any prior history; the note round-trips through the history
parser as exactly that one-element system transcript. -/
theorem C2_error_pair_amended (chat : ChatParams → Except String CompletionResponse)
    (url prompt : String) (sys hist : Option String) (e : ExecErr)
    (he : executeCore chat url prompt sys hist = .error e) :
    execute_llama_chat chat url prompt sys hist
        = (.str ("Error: " ++ e.message),
           dumps true (.arr [.obj [("role", .str "system"),
             ("content", .str ("Error occurred: " ++ e.message))]])) ∧
    _parse_chat_history (dumps true (.arr [.obj [("role", .str "system"),
        ("content", .str ("Error occurred: " ++ e.message))]]))
      = .ok [.obj [("role", .str "system"),
          ("content", .str ("Error occurred: " ++ e.message))]] := by
  constructor
  · unfold execute_llama_chat
    rw [he]
    rfl
  · exact parse_serialize true [⟨.system, "Error occurred: " ++ e.message⟩]

theorem C2_amended_witness :
    (execute_llama_chat (fun _ => .error "boom") "" "Hello" none none
        = (.str ("Error: " ++ ExecErr.emptyServerUrl.message),
           dumps true (.arr [.obj [("role", .str "system"),
             ("content", .str ("Error occurred: " ++ ExecErr.emptyServerUrl.message))]])) ∧
      _parse_chat_history (dumps true (.arr [.obj [("role", .str "system"),
          ("content", .str ("Error occurred: " ++ ExecErr.emptyServerUrl.message))]]))
        = .ok [.obj [("role", .str "system"),
            ("content", .str ("Error occurred: " ++ ExecErr.emptyServerUrl.message))]]) :=
  C2_error_pair_amended (fun _ => .error "boom") "" "Hello" none none .emptyServerUrl rfl

/-- C9, refuted as stated: in the end-to-end scenario the returned history
text is not the compact one-line serialization the claim states (the code
serializes with `indent=2`), although the response text is "Hi there!". -/
theorem C9_counterexample :
    (execute_llama_chat (fun _ => .ok ⟨some [⟨some ⟨some (.str "Hi there!")⟩⟩]⟩)
        "http://localhost:8080/v1" "Hello" none (some "[]")).2
      ≠ "[\x7b\"role\": \"assistant\", \"content\": \"Hi there!\"\x7d]" ∧
    (execute_llama_chat (fun _ => .ok ⟨some [⟨some ⟨some (.str "Hi there!")⟩⟩]⟩)
        "http://localhost:8080/v1" "Hello" none (some "[]")).1 = .str "Hi there!" :=
  ⟨by decide, rfl⟩

/-- C9 (amended): in the end-to-end scenario the surface returns the pair
of "Hi there!" and the `indent=2` serialization of the one-element
assistant transcript, which parses back to exactly that transcript. -/
theorem C9_scenario_amended :
    execute_llama_chat (fun _ => .ok ⟨some [⟨some ⟨some (.str "Hi there!")⟩⟩]⟩)
        "http://localhost:8080/v1" "Hello" none (some "[]")
      = (.str "Hi there!",
         "[\n  \x7b\n    \"role\": \"assistant\",\n    \"content\": \"Hi there!\"\n  \x7d\n]") ∧
    _parse_chat_history
        "[\n  \x7b\n    \"role\": \"assistant\",\n    \"content\": \"Hi there!\"\n  \x7d\n]"
      = .ok [.obj [("role", .str "assistant"), ("content", .str "Hi there!")]] :=
  ⟨rfl, rfl⟩

/-- C10: a key-value element carrying a legal role and any content value —
null, a number, or a nested structure — passes validation regardless of the
content's type, is carried unchanged into the returned transcript, and the
later serialized output is the serialization of a list still containing it
unchanged. -/
theorem C10_untyped_content (fields : List (String × Json)) (rs : String) (v : Json)
    (l : List Json) (i : Nat) (s : String)
    (hr : lookupKV fields "role" = some (.str rs))
    (hrs : rs = "system" ∨ rs = "user" ∨ rs = "assistant")
    (hc : lookupKV fields "content" = some v)
    (hl : l.get? i = some (.obj fields))
    (hall : ∀ x ∈ l, msgValid x = true)
    (hs : ¬pyStrip s = "") (hjson : jsonParse s = some (.arr l)) :
    msgValid (.obj fields) = true ∧ _parse_chat_history s = .ok l ∧
    (∀ c, _format_chat_history_output ⟨some [⟨some ⟨some c⟩⟩]⟩ l
      = dumps false (.arr (l ++ [assistantMsg c]))) := by
  refine ⟨?_, ?_, fun c => rfl⟩
  · rcases hrs with rfl | rfl | rfl <;>
      simp [msgValid, msgError, hr, hc, validRoleVal, roleErr]
  · unfold _parse_chat_history
    rw [if_neg hs, hjson]
    simp only [validateFrom_ok l hall 0]

theorem C10_witness :
    msgValid (.obj [("role", .str "user"), ("content", .null)]) = true ∧
    _parse_chat_history "[\x7b\"role\": \"user\", \"content\": null\x7d]"
      = .ok [.obj [("role", .str "user"), ("content", .null)]] ∧
    (∀ c, _format_chat_history_output ⟨some [⟨some ⟨some c⟩⟩]⟩
        [.obj [("role", .str "user"), ("content", .null)]]
      = dumps false (.arr ([.obj [("role", .str "user"), ("content", .null)]]
          ++ [assistantMsg c]))) :=
  C10_untyped_content [("role", .str "user"), ("content", .null)] "user" .null
    [.obj [("role", .str "user"), ("content", .null)]] 0
    "[\x7b\"role\": \"user\", \"content\": null\x7d]" rfl (Or.inr (Or.inl rfl)) rfl rfl
    (by decide) (by decide) rfl

end ComfyLlama
